import Mathlib

/-!
# Verification of the Eulerian GRP time stepper (`GRP_solver_EUL_source.c`)

This file gives a shallow embedding, over exact rationals, of the function
`GRP_solver_EUL_source` from `src/src/finite_volume/GRP_solver_EUL_source.c`
and proves properties of its stages and of the stepping loop.

Modelling conventions:
* C `double` arithmetic is modelled by `ℚ` (exact arithmetic; floating-point
  rounding, NaN and infinity propagation are outside the model).  The two
  places where the code branches on finiteness of a configuration value
  (`isfinite(t_all)` at lines 322/385 and `isfinite(config[16])` at line 322)
  are modelled by explicit boolean flags `tFinite` / `tau16Finite`; the
  comparison `time_c > t_all - eps` of line 389 is modelled as false when
  `t_all` is `+inf` (in C, `x > INFINITY` is false), and the `isinf(time_c)`
  disjunct of line 389 is tracked by a boolean that records that the code
  executed `time_c = t_all` with `t_all = +inf` (lines 304/309/364/369).
* `sqrt` (line 268) and the external solver `linear_GRP_solver_Edir`
  (declared elsewhere in the repository, its implementation is not part of
  the sources under verification; called at line 299) are parameters of the
  model (`sqrtQ`, `solver`): every theorem below holds for all values of
  these parameters unless it instantiates them explicitly.
* C arrays are total functions `ℕ → ℚ`; the code only reads the indices the
  loops touch, and all theorems constrain only those indices.
-/

namespace HydroGRP

/-- A primitive-variable 3-vector `(rho, u, p)`, used for cell states,
interface states (`mid` of the GRP solver) and for the temporal-derivative
vector `dire` (whose components are then `d rho/dt, du/dt, dp/dt`). -/
structure Prim where
  rho : ℚ
  u : ℚ
  p : ℚ
  deriving DecidableEq

/-- One row of the cell-average arrays `RHO, U, P, E` (the C code keeps two
rows and copies row `n` back onto row `n-1` at the end of each step,
lines 396-402; the model keeps the single current row). -/
structure Cells where
  rho : ℕ → ℚ
  u : ℕ → ℚ
  p : ℕ → ℚ
  E : ℕ → ℚ

/-- The twelve boundary-ghost scalars of lines 110-111:
values `UL, PL, RHOL, UR, PR, RHOR` and slopes `SUL, SPL, SRHOL,
SUR, SPR, SRHOR` (the slopes are zero-initialised in the C code). -/
structure Ghost where
  UL : ℚ
  PL : ℚ
  RHOL : ℚ
  SUL : ℚ
  SPL : ℚ
  SRHOL : ℚ
  UR : ℚ
  PR : ℚ
  RHOR : ℚ
  SUR : ℚ
  SPR : ℚ
  SRHOR : ℚ
  deriving DecidableEq

/-- Input record of the external linear GRP solver, in the argument order of
the call at line 299 (`rho_L, rho_R, s_rho_L, s_rho_R, u_L, u_R, s_u_L,
s_u_R, p_L, p_R, s_p_L, s_p_R, gamma, eps`). -/
structure GRPIn where
  rhoL : ℚ
  rhoR : ℚ
  srhoL : ℚ
  srhoR : ℚ
  uL : ℚ
  uR : ℚ
  suL : ℚ
  suR : ℚ
  pL : ℚ
  pR : ℚ
  spL : ℚ
  spR : ℚ
  gamma : ℚ
  eps : ℚ
  deriving DecidableEq

/-- Output record of the external linear GRP solver: `dire` is the temporal
derivative `(d rho/dt, du/dt, dp/dt)` and `mid` the Riemann solution
`(rho_star, u_star, p_star)` (see lines 60-66). -/
structure GRPOut where
  dire : Prim
  mid : Prim
  deriving DecidableEq

/-- Configuration of one stepper call: the `config[...]` fields read at
lines 40-48 plus the two external functions the stepper consumes.
`tFinite` models `isfinite(config[1])`, `tau16Finite` models
`isfinite(config[16])`; `t_all`/`tau16` are meaningful only when the
corresponding flag is `true`. -/
structure Params where
  m : ℕ
  tFinite : Bool
  t_all : ℚ
  eps : ℚ
  N : ℕ
  gamma : ℚ
  CFL : ℚ
  h : ℚ
  tau16Finite : Bool
  tau16 : ℚ
  bound : ℤ
  alpha : ℚ
  sqrtQ : ℚ → ℚ
  solver : GRPIn → GRPOut

/-- The mutable state carried from one time step to the next: the current
cell row, the per-cell slope arrays `s_u, s_p, s_rho`, the boundary ghost
scalars, the `find_bound` flag, the current time `time_c`, the `tau`
variable, and the value of `config[5]`. -/
structure StepState where
  cells : Cells
  s_u : ℕ → ℚ
  s_p : ℕ → ℚ
  s_rho : ℕ → ℚ
  g : Ghost
  findBound : Bool
  time_c : ℚ
  tau : ℚ
  config5 : ℚ

/-- Modelled from the spec: `minmod2` from the slope-limiter utilities
(`tools.c`, which is not among the sources under `src/`; the spec defines
`minmod2(a, b) = 0` if `sign(a) ≠ sign(b)`, else `sign(a)·min(|a|,|b|)`). -/
def minmod2 (a b : ℚ) : ℚ :=
  if 0 < a ∧ 0 < b then min a b
  else if a < 0 ∧ b < 0 then max a b
  else 0

/-- Modelled from the spec: `minmod3` from the slope-limiter utilities
(`tools.c`, not among the sources under `src/`; the spec defines
`minmod3(a, b, c) = 0` if the three signs disagree, else
`sign(a)·min(|a|,|b|,|c|)`). -/
def minmod3 (a b c : ℚ) : ℚ :=
  if 0 < a ∧ 0 < b ∧ 0 < c then min a (min b c)
  else if a < 0 ∧ b < 0 ∧ c < 0 then max a (max b c)
  else 0

/-- Boundary ghost-value refresh, the `switch (bound)` of lines 119-166.
Returns `none` on an unrecognised tag (the `goto return_NULL` of line 165);
otherwise the updated ghost record (slope fields untouched here) and the
new `find_bound` flag.  Tag `-1` only captures the ghost values when
`find_bound` is still false (lines 121-130). -/
def bcValues (bound : ℤ) (m : ℕ) (cur : Cells) (findBound : Bool) (g : Ghost) :
    Option (Ghost × Bool) :=
  if bound = -1 then
    if findBound then some (g, true)
    else
      some ({ g with UL := cur.u 0, UR := cur.u (m - 1),
                     PL := cur.p 0, PR := cur.p (m - 1),
                     RHOL := cur.rho 0, RHOR := cur.rho (m - 1) }, true)
  else if bound = -2 then
    some ({ g with UL := - cur.u 0, UR := - cur.u (m - 1),
                   PL := cur.p 0, PR := cur.p (m - 1),
                   RHOL := cur.rho 0, RHOR := cur.rho (m - 1) }, true)
  else if bound = -4 then
    some ({ g with UL := cur.u 0, UR := cur.u (m - 1),
                   PL := cur.p 0, PR := cur.p (m - 1),
                   RHOL := cur.rho 0, RHOR := cur.rho (m - 1) }, true)
  else if bound = -5 then
    some ({ g with UL := cur.u (m - 1), UR := cur.u 0,
                   PL := cur.p (m - 1), PR := cur.p 0,
                   RHOL := cur.rho (m - 1), RHOR := cur.rho 0 }, true)
  else if bound = -24 then
    some ({ g with UL := - cur.u 0, UR := cur.u (m - 1),
                   PL := cur.p 0, PR := cur.p (m - 1),
                   RHOL := cur.rho 0, RHOR := cur.rho (m - 1) }, true)
  else none

/-- Left one-sided difference quotient of the slope reconstruction
(lines 175-186): `(arr j - arr (j-1))/h` for interior `j`, and the left
ghost value in place of `arr (-1)` at `j = 0`. -/
def slopeL (h : ℚ) (arr : ℕ → ℚ) (gl : ℚ) (j : ℕ) : ℚ :=
  if j ≠ 0 then (arr j - arr (j - 1)) / h else (arr 0 - gl) / h

/-- Right one-sided difference quotient of the slope reconstruction
(lines 187-198): `(arr (j+1) - arr j)/h` for `j < m-1`, and the right ghost
value in place of `arr m` at `j = m-1`. -/
def slopeR (h : ℚ) (m : ℕ) (arr : ℕ → ℚ) (gr : ℚ) (j : ℕ) : ℚ :=
  if j < m - 1 then (arr (j + 1) - arr j) / h else (gr - arr j) / h

/-- Per-cell slope limiting of lines 199-210: `minmod2` of the two one-sided
quotients at step `k = 1`, and `minmod3(alpha·s_L, alpha·s_R, s old)` with
the previously stored slope as third argument at every later step. -/
def reconSlope (k : ℕ) (alpha h : ℚ) (m : ℕ) (arr : ℕ → ℚ) (gl gr : ℚ)
    (s : ℕ → ℚ) (j : ℕ) : ℚ :=
  if k = 1 then minmod2 (slopeL h arr gl j) (slopeR h m arr gr j)
  else minmod3 (alpha * slopeL h arr gl j) (alpha * slopeR h m arr gr j) (s j)

/-- The three refreshed slope arrays. -/
structure Slopes3 where
  su : ℕ → ℚ
  sp : ℕ → ℚ
  srho : ℕ → ℚ

/-- The slope-reconstruction loop of lines 169-211, limiting each primitive
variable independently; indices `j ≥ m` keep their previous value (the C
loop never touches them). -/
def newSlopes (k : ℕ) (alpha h : ℚ) (m : ℕ) (cur : Cells) (g : Ghost)
    (su sp srho : ℕ → ℚ) : Slopes3 where
  su := fun j => if j < m then reconSlope k alpha h m cur.u g.UL g.UR su j else su j
  sp := fun j => if j < m then reconSlope k alpha h m cur.p g.PL g.PR sp j else sp j
  srho := fun j => if j < m then reconSlope k alpha h m cur.rho g.RHOL g.RHOR srho j else srho j

/-- Boundary ghost-slope refresh, the `switch (bound)` of lines 212-225:
tags `-2`, `-5` and `-24` update (some of) the six ghost slopes, every other
tag leaves them unchanged. -/
def bcSlopes (bound : ℤ) (m : ℕ) (su sp srho : ℕ → ℚ) (g : Ghost) : Ghost :=
  if bound = -2 then { g with SUL := - su 0, SUR := - su (m - 1) }
  else if bound = -5 then
    { g with SUL := su (m - 1), SUR := su 0,
             SPL := sp (m - 1), SPR := sp 0,
             SRHOL := srho (m - 1), SRHOR := srho 0 }
  else if bound = -24 then { g with SUL := - su 0 }
  else g

/-- Reconstructed left interface state (lines 233-244):
`cell (j-1) + 0.5·h·slope (j-1)` for `j ≥ 1`, and the left ghost value plus
`0.5·h` times the left ghost slope at `j = 0`. -/
def reconLState (h : ℚ) (cur : Cells) (g : Ghost) (su sp srho : ℕ → ℚ)
    (j : ℕ) : Prim :=
  if j ≠ 0 then
    { rho := cur.rho (j - 1) + 0.5 * h * srho (j - 1),
      u := cur.u (j - 1) + 0.5 * h * su (j - 1),
      p := cur.p (j - 1) + 0.5 * h * sp (j - 1) }
  else
    { rho := g.RHOL + 0.5 * h * g.SRHOL,
      u := g.UL + 0.5 * h * g.SUL,
      p := g.PL + 0.5 * h * g.SPL }

/-- Reconstructed right interface state (lines 245-256):
`cell j - 0.5·h·slope j` for `j < m`, and — with a `+` sign, exactly as in
the source — the right ghost value plus `0.5·h` times the right ghost slope
at `j = m`. -/
def reconRState (h : ℚ) (m : ℕ) (cur : Cells) (g : Ghost) (su sp srho : ℕ → ℚ)
    (j : ℕ) : Prim :=
  if j < m then
    { rho := cur.rho j - 0.5 * h * srho j,
      u := cur.u j - 0.5 * h * su j,
      p := cur.p j - 0.5 * h * sp j }
  else
    { rho := g.RHOR + 0.5 * h * g.SRHOR,
      u := g.UR + 0.5 * h * g.SUR,
      p := g.PR + 0.5 * h * g.SPR }

/-- The per-interface positivity test of line 257 (`p_L < eps || p_R < eps
|| rho_L < eps || rho_R < eps`).  The `isfinite` test of line 262 is
vacuous over exact rationals and is not modelled. -/
def reconBad (eps : ℚ) (L R : Prim) : Prop :=
  L.p < eps ∨ R.p < eps ∨ L.rho < eps ∨ R.rho < eps

instance (eps : ℚ) (L R : Prim) : Decidable (reconBad eps L R) := by
  unfold reconBad; infer_instance

/-- One contribution to `h/S_max` (lines 268-271): `h / (|u| + |c|)` with
`c = sqrtQ (gamma·p/rho)` (the code takes `fabs` of both `u` and `c`). -/
def hsContrib (sq : ℚ → ℚ) (gamma h : ℚ) (st : Prim) : ℚ :=
  h / (|st.u| + |sq (gamma * st.p / st.rho)|)

/-- The list of the `2·(m+1)` wave-speed contributions gathered by the
interface loop, in loop order (left state then right state at each
interface `j = 0..m`). -/
def hsList (sq : ℚ → ℚ) (gamma h : ℚ) (m : ℕ) (interL interR : ℕ → Prim) :
    List ℚ :=
  (List.range (m + 1)).flatMap fun j =>
    [hsContrib sq gamma h (interL j), hsContrib sq gamma h (interR j)]

/-- Minimum of a list of rationals (the C code initialises the accumulator
to `INFINITY` at line 116 and applies `fmin` once per element, so for a
nonempty list the result is the plain minimum; `hsList` is never empty).
The `[]` value is arbitrary. -/
def listMin : List ℚ → ℚ
  | [] => 0
  | a :: t => t.foldl min a

/-- Slope fed to the GRP solver from the left of interface `j`
(lines 273-284): the cell slope `s (j-1)`, or the ghost slope at `j = 0`. -/
def slopeLAt (sl : ℚ) (s : ℕ → ℚ) (j : ℕ) : ℚ :=
  if j ≠ 0 then s (j - 1) else sl

/-- Slope fed to the GRP solver from the right of interface `j`
(lines 285-296): the cell slope `s j`, or the ghost slope at `j = m`. -/
def slopeRAt (m : ℕ) (sr : ℚ) (s : ℕ → ℚ) (j : ℕ) : ℚ :=
  if j < m then s j else sr

/-- The time-step selection of lines 322-328: when `t_all` is finite, or
`config[16]` is not finite, or `config[16] ≤ 0`, recompute
`tau = CFL·h_S_max` and clamp it to `t_all - time_c` when
`time_c + tau > t_all - eps`; otherwise keep the previous `tau` (which is
the configured `config[16]`).  The clamp comparison is false in C when
`t_all` is `+inf`, hence the `tFinite` guard on the inner branch. -/
def chooseTau (P : Params) (time_c hS tauPrev : ℚ) : ℚ :=
  if P.tFinite = true ∨ P.tau16Finite = false ∨ P.tau16 ≤ 0 then
    let t := P.CFL * hS
    if P.tFinite = true ∧ time_c + t > P.t_all - P.eps then P.t_all - time_c
    else t
  else tauPrev

/-- The first half-step prediction of lines 332-334:
`V_next = mid + 0.5·tau·dire` componentwise. -/
def halfStateAt (tau : ℚ) (mid dire : ℕ → Prim) (j : ℕ) : Prim :=
  { rho := (mid j).rho + 0.5 * tau * (dire j).rho,
    u := (mid j).u + 0.5 * tau * (dire j).u,
    p := (mid j).p + 0.5 * tau * (dire j).p }

/-- The flux assembly of lines 336-339 from one (half-step) interface
state: `F1 = rho·u`, `F2 = F1·u + p`,
`F3 = ((gamma/(gamma-1))·p + 0.5·F1·u)·u`. -/
def fluxOf (gamma : ℚ) (st : Prim) : ℚ × ℚ × ℚ :=
  let F1 := st.rho * st.u
  let F2 := F1 * st.u + st.p
  let F3 := ((gamma / (gamma - 1)) * st.p + 0.5 * F1 * st.u) * st.u
  (F1, F2, F3)

/-- The state stored in `V_next` after the second `+= 0.5·tau·dire` of
lines 341-343: the full-step value `mid + tau·dire` componentwise. -/
def fullStateAt (tau : ℚ) (mid dire : ℕ → Prim) (j : ℕ) : Prim :=
  { rho := (mid j).rho + 0.5 * tau * (dire j).rho + 0.5 * tau * (dire j).rho,
    u := (mid j).u + 0.5 * tau * (dire j).u + 0.5 * tau * (dire j).u,
    p := (mid j).p + 0.5 * tau * (dire j).p + 0.5 * tau * (dire j).p }

/-- The updated conservative and derived quantities of one cell. -/
structure UCell where
  rho : ℚ
  u : ℚ
  E : ℚ
  p : ℚ
  deriving DecidableEq

/-- The conservative forward-Euler cell update of lines 353-359:
`rho' = rho - nu·(F1 (j+1) - F1 j)`, momentum `Mom` and energy `Ene`
likewise from `F2`, `F3`; then `u' = Mom/rho'`, `E' = Ene/rho'`,
`p' = (Ene - 0.5·Mom·u')·(gamma - 1)`. -/
def updateCellAt (gamma nu : ℚ) (cur : Cells) (F1 F2 F3 : ℕ → ℚ) (j : ℕ) :
    UCell :=
  let rho' := cur.rho j - nu * (F1 (j + 1) - F1 j)
  let Mom := cur.rho j * cur.u j - nu * (F2 (j + 1) - F2 j)
  let Ene := cur.rho j * cur.E j - nu * (F3 (j + 1) - F3 j)
  let u' := Mom / rho'
  let E' := Ene / rho'
  let p' := (Ene - 0.5 * Mom * u') * (gamma - 1)
  { rho := rho', u := u', E := E', p := p' }

/-- The slope refresh of lines 373-375 from the (full-step) interface
values: `(arr (j+1) - arr j)/h`. -/
def refreshSlope (h : ℚ) (arr : ℕ → ℚ) (j : ℕ) : ℚ :=
  (arr (j + 1) - arr j) / h

/-! ### The stages of one time step, as functions of `(P, k, st)`

Each `st...` definition below names one intermediate value of the body of
the main loop (lines 114-403) for step number `k` starting from state
`st`.  In the `.fatal` case of `bcValues` the `getD` fallback below is never
used by `doStep`. -/

/-- Ghost values and `find_bound` after the first boundary switch
(lines 119-166). -/
def stG1 (P : Params) (st : StepState) : Ghost × Bool :=
  (bcValues P.bound P.m st.cells st.findBound st.g).getD (st.g, st.findBound)

/-- The slope arrays after the reconstruction loop (lines 169-211). -/
def stSlopes (P : Params) (k : ℕ) (st : StepState) : Slopes3 :=
  newSlopes k P.alpha P.h P.m st.cells (stG1 P st).1 st.s_u st.s_p st.s_rho

/-- Ghost record after the ghost-slope switch (lines 212-225). -/
def stG2 (P : Params) (k : ℕ) (st : StepState) : Ghost :=
  bcSlopes P.bound P.m (stSlopes P k st).su (stSlopes P k st).sp
    (stSlopes P k st).srho (stG1 P st).1

/-- Reconstructed left state at interface `j` (lines 233-244). -/
def stInterL (P : Params) (k : ℕ) (st : StepState) (j : ℕ) : Prim :=
  reconLState P.h st.cells (stG2 P k st) (stSlopes P k st).su
    (stSlopes P k st).sp (stSlopes P k st).srho j

/-- Reconstructed right state at interface `j` (lines 245-256). -/
def stInterR (P : Params) (k : ℕ) (st : StepState) (j : ℕ) : Prim :=
  reconRState P.h P.m st.cells (stG2 P k st) (stSlopes P k st).su
    (stSlopes P k st).sp (stSlopes P k st).srho j

/-- Whether some interface `j = 0..m` fails the positivity test of line 257
(which makes the code `goto return_NULL`, lines 258-261). -/
def stReconFail (P : Params) (k : ℕ) (st : StepState) : Bool :=
  (List.range (P.m + 1)).any fun j =>
    decide (reconBad P.eps (stInterL P k st j) (stInterR P k st j))

/-- The value of `h_S_max` after the interface loop (lines 116, 270-271). -/
def stHS (P : Params) (k : ℕ) (st : StepState) : ℚ :=
  listMin (hsList P.sqrtQ P.gamma P.h P.m (stInterL P k st) (stInterR P k st))

/-- The input record passed to `linear_GRP_solver_Edir` at interface `j`
(line 299, with the slope selection of lines 273-296). -/
def stGRPIn (P : Params) (k : ℕ) (st : StepState) (j : ℕ) : GRPIn :=
  { rhoL := (stInterL P k st j).rho
    rhoR := (stInterR P k st j).rho
    srhoL := slopeLAt (stG2 P k st).SRHOL (stSlopes P k st).srho j
    srhoR := slopeRAt P.m (stG2 P k st).SRHOR (stSlopes P k st).srho j
    uL := (stInterL P k st j).u
    uR := (stInterR P k st j).u
    suL := slopeLAt (stG2 P k st).SUL (stSlopes P k st).su j
    suR := slopeRAt P.m (stG2 P k st).SUR (stSlopes P k st).su j
    pL := (stInterL P k st j).p
    pR := (stInterR P k st j).p
    spL := slopeLAt (stG2 P k st).SPL (stSlopes P k st).sp j
    spR := slopeRAt P.m (stG2 P k st).SPR (stSlopes P k st).sp j
    gamma := P.gamma
    eps := P.eps }

/-- `mid` output of the solver at interface `j` (stored at lines 312-314). -/
def stMid (P : Params) (k : ℕ) (st : StepState) (j : ℕ) : Prim :=
  (P.solver (stGRPIn P k st j)).mid

/-- `dire` output of the solver at interface `j` (stored at lines 315-317). -/
def stDire (P : Params) (k : ℕ) (st : StepState) (j : ℕ) : Prim :=
  (P.solver (stGRPIn P k st j)).dire

/-- Whether some interface has `mid[2] < eps` (line 301), which makes the
code execute `time_c = t_all` (line 304).  The `isfinite` test of line 306
is vacuous over exact rationals. -/
def stStarBad (P : Params) (k : ℕ) (st : StepState) : Bool :=
  (List.range (P.m + 1)).any fun j => decide ((stMid P k st j).p < P.eps)

/-- `time_c` as seen by the time-step selection: forced to `t_all` by a star
failure when `t_all` is finite (line 304). -/
def stTc1 (P : Params) (k : ℕ) (st : StepState) : ℚ :=
  if stStarBad P k st = true ∧ P.tFinite = true then P.t_all else st.time_c

/-- The time step `tau` of this step (lines 322-327). -/
def stTau (P : Params) (k : ℕ) (st : StepState) : ℚ :=
  chooseTau P (stTc1 P k st) (stHS P k st) st.tau

/-- The half-step state at interface `j` from which the fluxes are
assembled (lines 332-334). -/
def stHalf (P : Params) (k : ℕ) (st : StepState) (j : ℕ) : Prim :=
  halfStateAt (stTau P k st) (stMid P k st) (stDire P k st) j

/-- The flux triple `(F1, F2, F3)` at interface `j` (lines 336-339). -/
def stF (P : Params) (k : ℕ) (st : StepState) (j : ℕ) : ℚ × ℚ × ℚ :=
  fluxOf P.gamma (stHalf P k st j)

/-- The full-step interface state left in `V_next` after the second
`+= 0.5·tau·dire` (lines 341-343). -/
def stFull (P : Params) (k : ℕ) (st : StepState) (j : ℕ) : Prim :=
  fullStateAt (stTau P k st) (stMid P k st) (stDire P k st) j

/-- The updated cell `j` (lines 353-359), with `nu = tau/h` (line 328). -/
def stNewC (P : Params) (k : ℕ) (st : StepState) (j : ℕ) : UCell :=
  updateCellAt P.gamma (stTau P k st / P.h) st.cells
    (fun i => (stF P k st i).1) (fun i => (stF P k st i).2.1)
    (fun i => (stF P k st i).2.2) j

/-- Whether some updated cell has `P < eps || RHO < eps` (line 361), which
makes the code execute `time_c = t_all` (line 364).  The `isfinite` test of
line 366 is vacuous over exact rationals. -/
def stUpdBad (P : Params) (k : ℕ) (st : StepState) : Bool :=
  (List.range P.m).any fun j =>
    decide ((stNewC P k st j).p < P.eps ∨ (stNewC P k st j).rho < P.eps)

/-- `time_c` after the update loop and the `time_c += tau` of line 384. -/
def stTc3 (P : Params) (k : ℕ) (st : StepState) : ℚ :=
  (if stUpdBad P k st = true ∧ P.tFinite = true then P.t_all else stTc1 P k st)
    + stTau P k st

/-- Whether the code has set `time_c = t_all` with `t_all = +inf`, making
the `isinf(time_c)` disjunct of line 389 true. -/
def stInf (P : Params) (k : ℕ) (st : StepState) : Bool :=
  (stStarBad P k st || stUpdBad P k st) && !P.tFinite

/-- The state at the start of the next step: cell averages copied back for
`j < m` (lines 396-402), slopes refreshed from the full-step interface
values for `j < m` (lines 373-375), the ghost record and `find_bound` as
left by this step's switches, `time_c` advanced, `tau` as used, `config[5]`
untouched (the `break` path of line 391 overrides it in `doStep`). -/
def nextState (P : Params) (k : ℕ) (st : StepState) : StepState where
  cells :=
    { rho := fun j => if j < P.m then (stNewC P k st j).rho else st.cells.rho j
      u := fun j => if j < P.m then (stNewC P k st j).u else st.cells.u j
      p := fun j => if j < P.m then (stNewC P k st j).p else st.cells.p j
      E := fun j => if j < P.m then (stNewC P k st j).E else st.cells.E j }
  s_u := fun j => if j < P.m then
      refreshSlope P.h (fun i => (stFull P k st i).u) j else (stSlopes P k st).su j
  s_p := fun j => if j < P.m then
      refreshSlope P.h (fun i => (stFull P k st i).p) j else (stSlopes P k st).sp j
  s_rho := fun j => if j < P.m then
      refreshSlope P.h (fun i => (stFull P k st i).rho) j else (stSlopes P k st).srho j
  g := stG2 P k st
  findBound := (stG1 P st).2
  time_c := stTc3 P k st
  tau := stTau P k st
  config5 := st.config5

/-- Outcome of one iteration of the main loop. -/
inductive StepOut where
  /-- A `goto return_NULL` exit (invalid boundary tag, line 165, or failed
  interface reconstruction, lines 260/265): the stepper returns at once. -/
  | fatal : StepOut
  /-- The `break` of line 392 after writing `config[5] = k` (line 391). -/
  | halt : StepState → StepOut
  /-- The loop continues with the next step. -/
  | next : StepState → StepOut

/-- One iteration of the main loop (lines 114-403) at step number `k`. -/
def doStep (P : Params) (k : ℕ) (st : StepState) : StepOut :=
  match bcValues P.bound P.m st.cells st.findBound st.g with
  | none => .fatal
  | some _ =>
    if stReconFail P k st = true then .fatal
    else if (P.tFinite = true ∧ stTc3 P k st > P.t_all - P.eps)
        ∨ stInf P k st = true then
      .halt { nextState P k st with config5 := (k : ℚ) }
    else .next (nextState P k st)

/-- Outcome of a whole stepper call. -/
inductive RunOut where
  /-- Exit through `goto return_NULL` while running step `k`; the state is
  the one at entry to that step (in particular `config[5]` untouched). -/
  | fatalAt : ℕ → StepState → RunOut
  /-- Exit through the end-of-step time check at step `k` (lines 389-393),
  after `config[5] = k`. -/
  | haltAt : ℕ → StepState → RunOut
  /-- The `for` loop ran its `N` iterations without breaking. -/
  | done : StepState → RunOut

/-- The main loop from step number `k` with `fuel` iterations left. -/
def runAux (P : Params) : ℕ → ℕ → StepState → RunOut
  | _, 0, st => .done st
  | k, fuel + 1, st =>
    match doStep P k st with
    | .fatal => .fatalAt k st
    | .halt s => .haltAt k s
    | .next s => runAux P (k + 1) fuel s

/-- The initial stepper state (lines 105-111): zero slopes (`calloc`),
`find_bound = false`, `time_c = 0`, `tau = config[16]`, `config[5] = N` as
supplied by the caller; the ghost values are the uninitialised locals of
line 110-111 with the slope fields zeroed, modelled by zeroing the slope
fields of an arbitrary record `g0`. -/
def initState (P : Params) (cells : Cells) (g0 : Ghost) : StepState where
  cells := cells
  s_u := fun _ => 0
  s_p := fun _ => 0
  s_rho := fun _ => 0
  g := { g0 with SUL := 0, SPL := 0, SRHOL := 0, SUR := 0, SPR := 0, SRHOR := 0 }
  findBound := false
  time_c := 0
  tau := P.tau16
  config5 := (P.N : ℚ)

/-- A whole call of `GRP_solver_EUL_source`: `N` loop iterations starting
at step number 1. -/
def runGRP (P : Params) (cells : Cells) (g0 : Ghost) : RunOut :=
  runAux P 1 P.N (initState P cells g0)

/-- `config[5]` as the caller sees it after the run (it is written only on
the `break` path, line 391). -/
def config5OfRun : RunOut → ℚ
  | .fatalAt _ st => st.config5
  | .haltAt _ st => st.config5
  | .done st => st.config5

/-- Bool test used in closed counterexamples: the step completed and the
loop would continue. -/
def isNext : StepOut → Bool
  | .next _ => true
  | _ => false

/-! ### Concrete configurations used by counterexamples and witnesses -/

/-- A uniform one-row state: `rho = 1, u = 0, p = 1, E = 5/2` (consistent
with `gamma = 7/5`). -/
def cellsUniform : Cells :=
  { rho := fun _ => 1, u := fun _ => 0, p := fun _ => 1, E := fun _ => 5 / 2 }

/-- A state with negative pressure everywhere (trips the reconstruction
positivity test). -/
def cellsNegP : Cells :=
  { rho := fun _ => 1, u := fun _ => 0, p := fun _ => -1, E := fun _ => 5 / 2 }

/-- Two cells with different pressures (1 and 2), otherwise uniform. -/
def cellsTwoP : Cells :=
  { rho := fun _ => 1, u := fun _ => 0,
    p := fun j => if j = 0 then 1 else 2, E := fun _ => 5 / 2 }

/-- Three cells with velocities `(1, 2, 0)`, otherwise uniform. -/
def cellsThreeU : Cells :=
  { rho := fun _ => 1,
    u := fun j => if j = 0 then 1 else if j = 1 then 2 else 0,
    p := fun _ => 1, E := fun _ => 5 / 2 }

/-- An all-zero ghost record standing for the uninitialised locals of
lines 110-111. -/
def ghostZero : Ghost := ⟨0, 0, 0, 0, 0, 0, 0, 0, 0, 0, 0, 0⟩

/-- A concrete stand-in for `sqrt` (the model is parametric in it). -/
def sqrtOne : ℚ → ℚ := fun _ => 1

/-- A concrete solver returning `mid = (1, 0, 1)`, `dire = 0`. -/
def solverConst : GRPIn → GRPOut := fun _ => ⟨⟨0, 0, 0⟩, ⟨1, 0, 1⟩⟩

/-- A concrete solver whose star pressure is zero (trips the `mid[2] < eps`
test of line 301). -/
def solverStarZero : GRPIn → GRPOut := fun _ => ⟨⟨0, 0, 0⟩, ⟨1, 0, 0⟩⟩

/-- A concrete solver whose pressure time-derivative depends on the
interface data (`dp/dt = p_L + p_R`), `mid = (1, 0, 1)`. -/
def solverDp : GRPIn → GRPOut := fun inp => ⟨⟨0, 0, inp.pL + inp.pR⟩, ⟨1, 0, 1⟩⟩

/-- Configuration for the normal-termination run: one cell, free boundary,
`t_all = 1/10` reached in the first step. -/
def P10c : Params :=
  { m := 1, tFinite := true, t_all := 1 / 10, eps := 1 / 1000, N := 5,
    gamma := 7 / 5, CFL := 9 / 20, h := 1, tau16Finite := false, tau16 := 0,
    bound := -4, alpha := 3 / 2, sqrtQ := sqrtOne, solver := solverConst }

/-- Initial state of the normal-termination run. -/
def st10c : StepState := initState P10c cellsUniform ghostZero

/-- The halt state of the normal-termination run. -/
def w10st : StepState :=
  match runGRP P10c cellsUniform ghostZero with
  | .haltAt _ s => s
  | _ => st10c

/-- Configuration for the reconstruction-failure run (same as `P10c`). -/
def P8c : Params :=
  { m := 1, tFinite := true, t_all := 1 / 10, eps := 1 / 1000, N := 5,
    gamma := 7 / 5, CFL := 9 / 20, h := 1, tau16Finite := false, tau16 := 0,
    bound := -4, alpha := 3 / 2, sqrtQ := sqrtOne, solver := solverConst }

/-- Initial state of the reconstruction-failure run. -/
def st8c : StepState := initState P8c cellsNegP ghostZero

/-- Configuration for the star-failure step: like `P10c` but with the
zero-star-pressure solver. -/
def P8w : Params :=
  { m := 1, tFinite := true, t_all := 1 / 10, eps := 1 / 1000, N := 5,
    gamma := 7 / 5, CFL := 9 / 20, h := 1, tau16Finite := false, tau16 := 0,
    bound := -4, alpha := 3 / 2, sqrtQ := sqrtOne, solver := solverStarZero }

/-- Initial state of the star-failure step. -/
def st8w : StepState := initState P8w cellsUniform ghostZero

/-- Configuration with a negative mesh width, making `h_S_max` negative
while every state test passes. -/
def P9c : Params :=
  { m := 1, tFinite := true, t_all := 10, eps := 1 / 1000, N := 5,
    gamma := 7 / 5, CFL := 9 / 20, h := -1, tau16Finite := false, tau16 := 0,
    bound := -4, alpha := 3 / 2, sqrtQ := sqrtOne, solver := solverConst }

/-- Initial state of the negative-`h_S_max` step. -/
def st9c : StepState := initState P9c cellsUniform ghostZero

/-- Configuration for the slope-refresh counterexample: two cells, fixed
`tau = 1` (`t_all` not finite), solver `solverDp` whose `dp/dt` differs
between interfaces. -/
def P5c : Params :=
  { m := 2, tFinite := false, t_all := 0, eps := 1 / 1000, N := 5,
    gamma := 7 / 5, CFL := 9 / 20, h := 1, tau16Finite := true, tau16 := 1,
    bound := -4, alpha := 3 / 2, sqrtQ := sqrtOne, solver := solverDp }

/-- Initial state of the slope-refresh counterexample. -/
def st5c : StepState := initState P5c cellsTwoP ghostZero

/-- Configuration for the right-ghost reconstruction counterexample:
three cells, periodic boundary, so that the right ghost slope `SUR`
is nonzero. -/
def P7c : Params :=
  { m := 3, tFinite := true, t_all := 10, eps := 1 / 1000, N := 5,
    gamma := 7 / 5, CFL := 9 / 20, h := 1, tau16Finite := false, tau16 := 0,
    bound := -5, alpha := 3 / 2, sqrtQ := sqrtOne, solver := solverConst }

/-- Initial state of the right-ghost reconstruction counterexample. -/
def st7c : StepState := initState P7c cellsThreeU ghostZero

/-! ## Helper lemmas -/

theorem foldl_min_le_init (a : ℚ) (t : List ℚ) : t.foldl min a ≤ a := by
  induction t generalizing a with
  | nil => exact le_refl a
  | cons b t ih => exact le_trans (ih (min a b)) (min_le_left a b)

theorem foldl_min_le_mem {x : ℚ} : ∀ (t : List ℚ) (a : ℚ), x ∈ t →
    t.foldl min a ≤ x := by
  intro t
  induction t with
  | nil => intro a hx; cases hx
  | cons b t ih =>
    intro a hx
    rcases List.mem_cons.mp hx with h | h
    · subst h
      exact le_trans (foldl_min_le_init (min a x) t) (min_le_right a x)
    · exact ih (min a b) h

theorem foldl_min_eq_or_mem (a : ℚ) (t : List ℚ) :
    t.foldl min a = a ∨ t.foldl min a ∈ t := by
  induction t generalizing a with
  | nil => exact Or.inl rfl
  | cons b t ih =>
    rcases ih (min a b) with h | h
    · rcases min_cases a b with ⟨hm, _⟩ | ⟨hm, _⟩
      · exact Or.inl (by rw [List.foldl_cons, h, hm])
      · exact Or.inr (List.mem_cons.mpr (Or.inl (by rw [List.foldl_cons, h, hm])))
    · exact Or.inr (List.mem_cons.mpr (Or.inr h))

theorem listMin_le {l : List ℚ} {x : ℚ} (hx : x ∈ l) : listMin l ≤ x := by
  cases l with
  | nil => cases hx
  | cons a t =>
    rcases List.mem_cons.mp hx with h | h
    · subst h; exact foldl_min_le_init x t
    · exact foldl_min_le_mem t a h

theorem listMin_mem {l : List ℚ} (h : l ≠ []) : listMin l ∈ l := by
  cases l with
  | nil => exact absurd rfl h
  | cons a t =>
    rcases foldl_min_eq_or_mem a t with h' | h'
    · exact List.mem_cons.mpr (Or.inl h')
    · exact List.mem_cons.mpr (Or.inr h')

theorem mem_hsList_left {sq : ℚ → ℚ} {gamma h : ℚ} {m : ℕ}
    {interL interR : ℕ → Prim} {j : ℕ} (hj : j ≤ m) :
    hsContrib sq gamma h (interL j) ∈ hsList sq gamma h m interL interR := by
  unfold hsList
  refine List.mem_flatMap.mpr ⟨j, List.mem_range.mpr (Nat.lt_succ_of_le hj), ?_⟩
  simp

theorem mem_hsList_right {sq : ℚ → ℚ} {gamma h : ℚ} {m : ℕ}
    {interL interR : ℕ → Prim} {j : ℕ} (hj : j ≤ m) :
    hsContrib sq gamma h (interR j) ∈ hsList sq gamma h m interL interR := by
  unfold hsList
  refine List.mem_flatMap.mpr ⟨j, List.mem_range.mpr (Nat.lt_succ_of_le hj), ?_⟩
  simp

theorem hsList_ne_nil (sq : ℚ → ℚ) (gamma h : ℚ) (m : ℕ)
    (interL interR : ℕ → Prim) : hsList sq gamma h m interL interR ≠ [] := by
  intro hcon
  have : hsContrib sq gamma h (interL 0) ∈ hsList sq gamma h m interL interR :=
    mem_hsList_left (Nat.zero_le m)
  rw [hcon] at this
  cases this

theorem doStep_halt_config5 {P : Params} {k : ℕ} {st s : StepState}
    (h : doStep P k st = .halt s) : s.config5 = (k : ℚ) := by
  unfold doStep at h
  cases hbc : bcValues P.bound P.m st.cells st.findBound st.g with
  | none => rw [hbc] at h; cases h
  | some x =>
    rw [hbc] at h
    simp only at h
    split at h
    · cases h
    · split at h
      · cases h; rfl
      · cases h

theorem doStep_next_config5 {P : Params} {k : ℕ} {st s : StepState}
    (h : doStep P k st = .next s) : s.config5 = st.config5 := by
  unfold doStep at h
  cases hbc : bcValues P.bound P.m st.cells st.findBound st.g with
  | none => rw [hbc] at h; cases h
  | some x =>
    rw [hbc] at h
    simp only at h
    split at h
    · cases h
    · split at h
      · cases h
      · cases h; rfl

theorem runAux_halt_config5 (P : Params) :
    ∀ (fuel k0 : ℕ) (st : StepState) (k : ℕ) (s : StepState),
      runAux P k0 fuel st = .haltAt k s → s.config5 = (k : ℚ) := by
  intro fuel
  induction fuel with
  | zero => intro k0 st k s h; cases h
  | succ n ih =>
    intro k0 st k s h
    unfold runAux at h
    cases hd : doStep P k0 st with
    | fatal => rw [hd] at h; cases h
    | halt s1 =>
      rw [hd] at h; cases h
      exact doStep_halt_config5 hd
    | next s1 =>
      rw [hd] at h
      exact ih (k0 + 1) s1 k s h

theorem runAux_fatal_config5 (P : Params) :
    ∀ (fuel k0 : ℕ) (st : StepState) (k : ℕ) (s : StepState),
      runAux P k0 fuel st = .fatalAt k s → s.config5 = st.config5 := by
  intro fuel
  induction fuel with
  | zero => intro k0 st k s h; cases h
  | succ n ih =>
    intro k0 st k s h
    unfold runAux at h
    cases hd : doStep P k0 st with
    | fatal => rw [hd] at h; cases h; rfl
    | halt s1 => rw [hd] at h; cases h
    | next s1 =>
      rw [hd] at h
      rw [ih (k0 + 1) s1 k s h, doStep_next_config5 hd]

theorem uc_algebra (g A M En : ℚ) (hA : A ≠ 0) :
    A * (M / A) = M ∧ A * (En / A) = En ∧
    (En - 0.5 * M * (M / A)) * (g - 1)
      = (g - 1) * (A * (En / A) - 0.5 * A * (M / A) ^ 2) := by
  refine ⟨?_, ?_, ?_⟩
  · rw [mul_comm]; exact div_mul_cancel₀ M hA
  · rw [mul_comm]; exact div_mul_cancel₀ En hA
  · field_simp
    ring

theorem updateCellAt_spec (gamma nu : ℚ) (cur : Cells) (F1 F2 F3 : ℕ → ℚ) (j : ℕ)
    (hrho : (updateCellAt gamma nu cur F1 F2 F3 j).rho ≠ 0) :
    (updateCellAt gamma nu cur F1 F2 F3 j).rho = cur.rho j - nu * (F1 (j + 1) - F1 j)
    ∧ (updateCellAt gamma nu cur F1 F2 F3 j).rho * (updateCellAt gamma nu cur F1 F2 F3 j).u
        = cur.rho j * cur.u j - nu * (F2 (j + 1) - F2 j)
    ∧ (updateCellAt gamma nu cur F1 F2 F3 j).rho * (updateCellAt gamma nu cur F1 F2 F3 j).E
        = cur.rho j * cur.E j - nu * (F3 (j + 1) - F3 j)
    ∧ (updateCellAt gamma nu cur F1 F2 F3 j).p
        = (gamma - 1) * ((updateCellAt gamma nu cur F1 F2 F3 j).rho
            * (updateCellAt gamma nu cur F1 F2 F3 j).E
          - 0.5 * (updateCellAt gamma nu cur F1 F2 F3 j).rho
            * (updateCellAt gamma nu cur F1 F2 F3 j).u ^ 2) := by
  have hA : cur.rho j - nu * (F1 (j + 1) - F1 j) ≠ 0 := hrho
  obtain ⟨h1, h2, h3⟩ := uc_algebra gamma (cur.rho j - nu * (F1 (j + 1) - F1 j))
    (cur.rho j * cur.u j - nu * (F2 (j + 1) - F2 j))
    (cur.rho j * cur.E j - nu * (F3 (j + 1) - F3 j)) hA
  exact ⟨rfl, h1, h2, h3⟩

/-! ## C1 -/

/-- C1: after the conservative update of a GRP Euler step, every interior
cell `j < m` satisfies the forward-Euler update formulas for `rho`,
`rho·u`, `rho·E` on the half-step fluxes with `nu = tau/h`, and the
equation-of-state identity `p = (gamma-1)·(rho·E - 0.5·rho·u²)` holds at
the cell centre (provided the updated density is nonzero, as the division
by `RHO[n][j]` in the source requires). -/
theorem C1_eos (P : Params) (k : ℕ) (st : StepState) (j : ℕ) (hj : j < P.m)
    (hrho : (stNewC P k st j).rho ≠ 0) :
    (nextState P k st).cells.rho j
        = st.cells.rho j - stTau P k st / P.h * ((stF P k st (j+1)).1 - (stF P k st j).1)
    ∧ (nextState P k st).cells.rho j * (nextState P k st).cells.u j
        = st.cells.rho j * st.cells.u j
          - stTau P k st / P.h * ((stF P k st (j+1)).2.1 - (stF P k st j).2.1)
    ∧ (nextState P k st).cells.rho j * (nextState P k st).cells.E j
        = st.cells.rho j * st.cells.E j
          - stTau P k st / P.h * ((stF P k st (j+1)).2.2 - (stF P k st j).2.2)
    ∧ (nextState P k st).cells.p j
        = (P.gamma - 1) * ((nextState P k st).cells.rho j * (nextState P k st).cells.E j
            - 0.5 * (nextState P k st).cells.rho j * (nextState P k st).cells.u j ^ 2) := by
  have h := updateCellAt_spec P.gamma (stTau P k st / P.h) st.cells
    (fun i => (stF P k st i).1) (fun i => (stF P k st i).2.1)
    (fun i => (stF P k st i).2.2) j hrho
  simp only [nextState, if_pos hj]
  exact h

/-- Witness for C1 at a concrete configuration. -/
theorem C1_eos_witness :
    (stNewC P10c 1 st10c 0).rho ≠ 0 ∧
    (nextState P10c 1 st10c).cells.p 0
      = (P10c.gamma - 1) * ((nextState P10c 1 st10c).cells.rho 0 * (nextState P10c 1 st10c).cells.E 0
          - 0.5 * (nextState P10c 1 st10c).cells.rho 0 * (nextState P10c 1 st10c).cells.u 0 ^ 2) :=
  ⟨by with_unfolding_all decide,
   (C1_eos P10c 1 st10c 0 (by decide) (by with_unfolding_all decide)).2.2.2⟩

/-! ## C2 -/

/-- C2: at every interface `j` of a GRP Euler step the numerical fluxes are
assembled from the half-step predicted state
`mid + 0.5·tau·dire` (where `mid` and `dire` are the outputs of the linear
GRP solver at that interface) as `F1 = rho·u`, `F2 = F1·u + p`,
`F3 = (gamma/(gamma-1))·p·u + 0.5·F1·u²`. -/
theorem C2_flux (P : Params) (k : ℕ) (st : StepState) (j : ℕ) :
    (stHalf P k st j).rho = (stMid P k st j).rho + 0.5 * stTau P k st * (stDire P k st j).rho
    ∧ (stHalf P k st j).u = (stMid P k st j).u + 0.5 * stTau P k st * (stDire P k st j).u
    ∧ (stHalf P k st j).p = (stMid P k st j).p + 0.5 * stTau P k st * (stDire P k st j).p
    ∧ stMid P k st j = (P.solver (stGRPIn P k st j)).mid
    ∧ stDire P k st j = (P.solver (stGRPIn P k st j)).dire
    ∧ (stF P k st j).1 = (stHalf P k st j).rho * (stHalf P k st j).u
    ∧ (stF P k st j).2.1 = (stF P k st j).1 * (stHalf P k st j).u + (stHalf P k st j).p
    ∧ (stF P k st j).2.2 = (P.gamma / (P.gamma - 1)) * (stHalf P k st j).p * (stHalf P k st j).u
        + 0.5 * (stF P k st j).1 * (stHalf P k st j).u ^ 2 := by
  refine ⟨rfl, rfl, rfl, rfl, rfl, rfl, rfl, ?_⟩
  simp only [stF, fluxOf]
  ring

/-! ## C3 -/

/-- C3: in a GRP Euler step, `h_S_max` is the minimum over all interfaces
`j = 0..m` of the contributions `h/(|u_L|+c_L)` and `h/(|u_R|+c_R)` of the
reconstructed interface states; when `t_all` is finite the step uses
`tau = CFL·h_S_max` clamped so that `time_c + tau` does not exceed `t_all`
(and is exactly `CFL·h_S_max` whenever that already keeps
`time_c + tau ≤ t_all - eps`); when `t_all` is not finite and the
configured `tau` (`config[16]`) is finite and positive, the `tau` variable
is left unchanged — and it starts out as the configured `config[16]`. -/
theorem C3_tau (P : Params) (k : ℕ) (st : StepState) :
    ((∀ j ≤ P.m, stHS P k st ≤ hsContrib P.sqrtQ P.gamma P.h (stInterL P k st j)
        ∧ stHS P k st ≤ hsContrib P.sqrtQ P.gamma P.h (stInterR P k st j))
      ∧ (∃ j ≤ P.m, stHS P k st = hsContrib P.sqrtQ P.gamma P.h (stInterL P k st j)
          ∨ stHS P k st = hsContrib P.sqrtQ P.gamma P.h (stInterR P k st j)))
    ∧ (P.tFinite = true → 0 ≤ P.eps → stTc1 P k st ≤ P.t_all - P.eps →
        (stTau P k st = P.CFL * stHS P k st ∨ stTau P k st = P.t_all - stTc1 P k st)
        ∧ stTc1 P k st + stTau P k st ≤ P.t_all
        ∧ (stTc1 P k st + P.CFL * stHS P k st ≤ P.t_all - P.eps →
            stTau P k st = P.CFL * stHS P k st))
    ∧ (P.tFinite = false → P.tau16Finite = true → 0 < P.tau16 →
        stTau P k st = st.tau)
    ∧ (∀ (cells : Cells) (g0 : Ghost), (initState P cells g0).tau = P.tau16) := by
  refine ⟨⟨?_, ?_⟩, ?_, ?_, ?_⟩
  · intro j hj
    exact ⟨listMin_le (mem_hsList_left hj), listMin_le (mem_hsList_right hj)⟩
  · have hmem := listMin_mem
      (hsList_ne_nil P.sqrtQ P.gamma P.h P.m (stInterL P k st) (stInterR P k st))
    obtain ⟨j, hjr, hx⟩ := List.mem_flatMap.mp hmem
    refine ⟨j, Nat.lt_succ_iff.mp (List.mem_range.mp hjr), ?_⟩
    rcases List.mem_cons.mp hx with h | h
    · exact Or.inl h
    · rcases List.mem_cons.mp h with h2 | h2
      · exact Or.inr h2
      · cases h2
  · intro hf he htc
    simp only [stTau, chooseTau, if_pos (Or.inl hf)]
    by_cases hclamp : P.tFinite = true
        ∧ stTc1 P k st + P.CFL * stHS P k st > P.t_all - P.eps
    · rw [if_pos hclamp]
      refine ⟨Or.inr rfl, by linarith, ?_⟩
      intro hle
      exact absurd hclamp.2 (not_lt.mpr hle)
    · rw [if_neg hclamp]
      have hnc : ¬ stTc1 P k st + P.CFL * stHS P k st > P.t_all - P.eps :=
        fun hgt => hclamp ⟨hf, hgt⟩
      refine ⟨Or.inl rfl, by linarith [not_lt.mp hnc], fun _ => rfl⟩
  · intro hf ht16 hpos
    simp only [stTau, chooseTau]
    rw [if_neg]
    intro hor
    rcases hor with h | h | h
    · rw [hf] at h; cases h
    · rw [ht16] at h; cases h
    · exact absurd hpos (not_lt.mpr h)
  · intro cells g0
    rfl

/-- Witness for C3 at a concrete configuration with finite `t_all`. -/
theorem C3_tau_witness :
    stTc1 P10c 1 st10c + stTau P10c 1 st10c ≤ P10c.t_all
    ∧ stHS P10c 1 st10c ≤ hsContrib P10c.sqrtQ P10c.gamma P10c.h (stInterL P10c 1 st10c 0) := by
  refine ⟨((C3_tau P10c 1 st10c).2.1 rfl (by with_unfolding_all decide)
    (by with_unfolding_all decide)).2.1, ?_⟩
  exact ((C3_tau P10c 1 st10c).1.1 0 (by decide)).1

/-! ## C4 -/

/-- C4: the slope-reconstruction loop limits each of `u`, `p`, `rho`
independently; for every cell `j < m` the stored slope is
`minmod2(s_L, s_R)` at step `k = 1` and
`minmod3(alpha·s_L, alpha·s_R, s_prev)` with the previously stored slope as
third argument at every step `k ≠ 1`; the one-sided quotients use the
boundary ghost values at the two ends (`j = 0` and `j = m-1`) and the
neighbouring cells inside. -/
theorem C4_slopes (P : Params) (k : ℕ) (st : StepState) (j : ℕ) (hj : j < P.m) :
    ((stSlopes P k st).su j = if k = 1
        then minmod2 (slopeL P.h st.cells.u (stG1 P st).1.UL j)
                     (slopeR P.h P.m st.cells.u (stG1 P st).1.UR j)
        else minmod3 (P.alpha * slopeL P.h st.cells.u (stG1 P st).1.UL j)
                     (P.alpha * slopeR P.h P.m st.cells.u (stG1 P st).1.UR j)
                     (st.s_u j))
    ∧ ((stSlopes P k st).sp j = if k = 1
        then minmod2 (slopeL P.h st.cells.p (stG1 P st).1.PL j)
                     (slopeR P.h P.m st.cells.p (stG1 P st).1.PR j)
        else minmod3 (P.alpha * slopeL P.h st.cells.p (stG1 P st).1.PL j)
                     (P.alpha * slopeR P.h P.m st.cells.p (stG1 P st).1.PR j)
                     (st.s_p j))
    ∧ ((stSlopes P k st).srho j = if k = 1
        then minmod2 (slopeL P.h st.cells.rho (stG1 P st).1.RHOL j)
                     (slopeR P.h P.m st.cells.rho (stG1 P st).1.RHOR j)
        else minmod3 (P.alpha * slopeL P.h st.cells.rho (stG1 P st).1.RHOL j)
                     (P.alpha * slopeR P.h P.m st.cells.rho (stG1 P st).1.RHOR j)
                     (st.s_rho j))
    ∧ (slopeL P.h st.cells.u (stG1 P st).1.UL 0
        = (st.cells.u 0 - (stG1 P st).1.UL) / P.h)
    ∧ (slopeR P.h P.m st.cells.u (stG1 P st).1.UR (P.m - 1)
        = ((stG1 P st).1.UR - st.cells.u (P.m - 1)) / P.h)
    ∧ (∀ i, 0 < i → slopeL P.h st.cells.u (stG1 P st).1.UL i
        = (st.cells.u i - st.cells.u (i - 1)) / P.h)
    ∧ (∀ i, i < P.m - 1 → slopeR P.h P.m st.cells.u (stG1 P st).1.UR i
        = (st.cells.u (i + 1) - st.cells.u i) / P.h) := by
  refine ⟨?_, ?_, ?_, ?_, ?_, ?_, ?_⟩
  · simp only [stSlopes, newSlopes, if_pos hj, reconSlope]
  · simp only [stSlopes, newSlopes, if_pos hj, reconSlope]
  · simp only [stSlopes, newSlopes, if_pos hj, reconSlope]
  · simp [slopeL]
  · simp [slopeR]
  · intro i hi
    simp [slopeL, Nat.pos_iff_ne_zero.mp hi]
  · intro i hi
    simp [slopeR, hi]

/-- Witness for C4 at a concrete configuration (first step, cell 0). -/
theorem C4_slopes_witness :
    (stSlopes P5c 1 st5c).sp 0 = if 1 = 1
        then minmod2 (slopeL P5c.h st5c.cells.p (stG1 P5c st5c).1.PL 0)
                     (slopeR P5c.h P5c.m st5c.cells.p (stG1 P5c st5c).1.PR 0)
        else minmod3 (P5c.alpha * slopeL P5c.h st5c.cells.p (stG1 P5c st5c).1.PL 0)
                     (P5c.alpha * slopeR P5c.h P5c.m st5c.cells.p (stG1 P5c st5c).1.PR 0)
                     (st5c.s_p 0) :=
  (C4_slopes P5c 1 st5c 0 (by decide)).2.1

/-! ## C6 -/

/-- C6: the boundary refresh at the start of each step follows the tag:
`-1` captures cells `0` and `m-1` only while `find_bound` is still false
(i.e. once, at the first step) and reuses the stored ghost afterwards;
`-2` negates the interior boundary velocities, copies pressure and density,
and sign-flips the velocity ghost slopes; `-4` copies the interior cells
and leaves the ghost slopes at their (zero-initialised) values; `-5` takes
the left ghost from the right interior cell and vice versa, for values and
slopes alike; `-24` applies the reflective rule on the left and the free
rule on the right; any other tag yields `none`, on which `doStep` aborts
fatally; every successful refresh sets `find_bound`; and the initial state
zeroes all ghost slopes. -/
theorem C6_boundary (m : ℕ) (cur : Cells) (g : Ghost) (su sp srho : ℕ → ℚ)
    (fb : Bool) :
    bcValues (-1) m cur false g
        = some ({ g with UL := cur.u 0, UR := cur.u (m - 1),
                         PL := cur.p 0, PR := cur.p (m - 1),
                         RHOL := cur.rho 0, RHOR := cur.rho (m - 1) }, true)
    ∧ bcValues (-1) m cur true g = some (g, true)
    ∧ bcValues (-2) m cur fb g
        = some ({ g with UL := - cur.u 0, UR := - cur.u (m - 1),
                         PL := cur.p 0, PR := cur.p (m - 1),
                         RHOL := cur.rho 0, RHOR := cur.rho (m - 1) }, true)
    ∧ bcValues (-4) m cur fb g
        = some ({ g with UL := cur.u 0, UR := cur.u (m - 1),
                         PL := cur.p 0, PR := cur.p (m - 1),
                         RHOL := cur.rho 0, RHOR := cur.rho (m - 1) }, true)
    ∧ bcValues (-5) m cur fb g
        = some ({ g with UL := cur.u (m - 1), UR := cur.u 0,
                         PL := cur.p (m - 1), PR := cur.p 0,
                         RHOL := cur.rho (m - 1), RHOR := cur.rho 0 }, true)
    ∧ bcValues (-24) m cur fb g
        = some ({ g with UL := - cur.u 0, UR := cur.u (m - 1),
                         PL := cur.p 0, PR := cur.p (m - 1),
                         RHOL := cur.rho 0, RHOR := cur.rho (m - 1) }, true)
    ∧ bcSlopes (-1) m su sp srho g = g
    ∧ bcSlopes (-2) m su sp srho g = { g with SUL := - su 0, SUR := - su (m - 1) }
    ∧ bcSlopes (-4) m su sp srho g = g
    ∧ bcSlopes (-5) m su sp srho g
        = { g with SUL := su (m - 1), SUR := su 0,
                   SPL := sp (m - 1), SPR := sp 0,
                   SRHOL := srho (m - 1), SRHOR := srho 0 }
    ∧ bcSlopes (-24) m su sp srho g = { g with SUL := - su 0 }
    ∧ (∀ b : ℤ, b ≠ -1 → b ≠ -2 → b ≠ -4 → b ≠ -5 → b ≠ -24 →
        bcValues b m cur fb g = none)
    ∧ (∀ b : ℤ, ∀ g2 : Ghost, ∀ fb2 : Bool,
        bcValues b m cur fb g = some (g2, fb2) → fb2 = true)
    ∧ (∀ (P : Params) (k : ℕ) (st : StepState),
        bcValues P.bound P.m st.cells st.findBound st.g = none →
        doStep P k st = .fatal)
    ∧ (∀ (P : Params) (cells : Cells) (g0 : Ghost),
        (initState P cells g0).g.SUL = 0 ∧ (initState P cells g0).g.SPL = 0
        ∧ (initState P cells g0).g.SRHOL = 0 ∧ (initState P cells g0).g.SUR = 0
        ∧ (initState P cells g0).g.SPR = 0 ∧ (initState P cells g0).g.SRHOR = 0)
    ∧ (∀ (P : Params) (cells : Cells) (g0 : Ghost),
        (initState P cells g0).findBound = false)
    ∧ (∀ (P : Params) (k : ℕ) (st : StepState),
        (nextState P k st).findBound = (stG1 P st).2) := by
  refine ⟨rfl, rfl, rfl, rfl, rfl, rfl, rfl, rfl, rfl, rfl, rfl, ?_, ?_, ?_, ?_,
    fun P cells g0 => rfl, fun P k st => rfl⟩
  · intro b h1 h2 h4 h5 h24
    simp only [bcValues, if_neg h1, if_neg h2, if_neg h4, if_neg h5, if_neg h24]
  · intro b g2 fb2 hsome
    simp only [bcValues] at hsome
    split at hsome
    · split at hsome
      · cases hsome; rfl
      · cases hsome; rfl
    · split at hsome
      · cases hsome; rfl
      · split at hsome
        · cases hsome; rfl
        · split at hsome
          · cases hsome; rfl
          · split at hsome
            · cases hsome; rfl
            · cases hsome
  · intro P k st hnone
    unfold doStep
    rw [hnone]
  · intro P cells g0
    exact ⟨rfl, rfl, rfl, rfl, rfl, rfl⟩

/-- Witness for C6: an unrecognised tag (0) is rejected. -/
theorem C6_boundary_witness :
    bcValues 0 1 cellsUniform false ghostZero = none :=
  (C6_boundary 1 cellsUniform ghostZero (fun _ => 0) (fun _ => 0) (fun _ => 0)
    false).2.2.2.2.2.2.2.2.2.2.2.1 0 (by decide) (by decide) (by decide)
    (by decide) (by decide)

/-! ## C5 -/

/-- C5 counterexample: in a completed step (the loop continues), the slope
stored for the next step differs from the difference quotient of the
half-step interface states (the states the fluxes are assembled from):
the code advances `V_next` by a second `0.5·tau·dire` before the slope
refresh. -/
theorem C5_cex :
    isNext (doStep P5c 1 st5c) = true
    ∧ (nextState P5c 1 st5c).s_p 0
        ≠ ((stHalf P5c 1 st5c 1).p - (stHalf P5c 1 st5c 0).p) / P5c.h := by
  constructor
  · with_unfolding_all decide
  · with_unfolding_all decide

/-- C5 (amended): the slopes stored for step `k+1` are the difference
quotients `(V_next (j+1) - V_next j)/h` of the full-step interface states
`mid + tau·dire` (not of the half-step states `mid + 0.5·tau·dire` from
which the fluxes are assembled, and not of the updated cell averages). -/
theorem C5_amended (P : Params) (k : ℕ) (st : StepState) (j : ℕ) (hj : j < P.m) :
    (nextState P k st).s_u j = ((stFull P k st (j + 1)).u - (stFull P k st j).u) / P.h
    ∧ (nextState P k st).s_p j = ((stFull P k st (j + 1)).p - (stFull P k st j).p) / P.h
    ∧ (nextState P k st).s_rho j
        = ((stFull P k st (j + 1)).rho - (stFull P k st j).rho) / P.h
    ∧ (∀ i, (stFull P k st i).u = (stMid P k st i).u + stTau P k st * (stDire P k st i).u
        ∧ (stFull P k st i).p = (stMid P k st i).p + stTau P k st * (stDire P k st i).p
        ∧ (stFull P k st i).rho
            = (stMid P k st i).rho + stTau P k st * (stDire P k st i).rho)
    ∧ (∀ i, stF P k st i
        = fluxOf P.gamma (halfStateAt (stTau P k st) (stMid P k st) (stDire P k st) i)) := by
  refine ⟨?_, ?_, ?_, ?_, fun i => rfl⟩
  · simp only [nextState, if_pos hj, refreshSlope]
  · simp only [nextState, if_pos hj, refreshSlope]
  · simp only [nextState, if_pos hj, refreshSlope]
  · intro i
    refine ⟨?_, ?_, ?_⟩ <;> (simp only [stFull, fullStateAt]; ring)

/-- Witness for the amended C5 at a concrete configuration. -/
theorem C5_amended_witness :
    (nextState P5c 1 st5c).s_p 0
      = ((stFull P5c 1 st5c 1).p - (stFull P5c 1 st5c 0).p) / P5c.h :=
  (C5_amended P5c 1 st5c 0 (by decide)).2.1

/-! ## C7 -/

/-- C7 counterexample: at the rightmost interface `j = m` the reconstructed
right state is the ghost value *plus* `0.5·h` times the ghost slope
(line 253-255), not minus as the symmetric formula `cell j - 0.5·h·s j`
would give: with periodic boundary and a nonzero right ghost slope the two
differ. -/
theorem C7_cex :
    stReconFail P7c 1 st7c = false
    ∧ (stG2 P7c 1 st7c).SUR = 1
    ∧ (stInterR P7c 1 st7c 3).u
        = (stG2 P7c 1 st7c).UR + 0.5 * P7c.h * (stG2 P7c 1 st7c).SUR
    ∧ (stInterR P7c 1 st7c 3).u
        ≠ (stG2 P7c 1 st7c).UR - 0.5 * P7c.h * (stG2 P7c 1 st7c).SUR := by
  refine ⟨?_, ?_, ?_, ?_⟩ <;> with_unfolding_all decide

/-- C7 (amended): the left input state at interface `j` is
`cell (j-1) + 0.5·h·s (j-1)` (the left ghost with its slope at `j = 0`);
the right input state is `cell j - 0.5·h·s j` for `j < m`, while at `j = m`
it is the right ghost *plus* `0.5·h` times the right ghost slope; the loop
reports a fatal failure (exit without completing the step) exactly when
some reconstructed interface density or pressure falls below `eps`. -/
theorem C7_amended (P : Params) (k : ℕ) (st : StepState) (j : ℕ) :
    (j ≠ 0 → stInterL P k st j
        = { rho := st.cells.rho (j - 1) + 0.5 * P.h * (stSlopes P k st).srho (j - 1),
            u := st.cells.u (j - 1) + 0.5 * P.h * (stSlopes P k st).su (j - 1),
            p := st.cells.p (j - 1) + 0.5 * P.h * (stSlopes P k st).sp (j - 1) })
    ∧ (stInterL P k st 0
        = { rho := (stG2 P k st).RHOL + 0.5 * P.h * (stG2 P k st).SRHOL,
            u := (stG2 P k st).UL + 0.5 * P.h * (stG2 P k st).SUL,
            p := (stG2 P k st).PL + 0.5 * P.h * (stG2 P k st).SPL })
    ∧ (j < P.m → stInterR P k st j
        = { rho := st.cells.rho j - 0.5 * P.h * (stSlopes P k st).srho j,
            u := st.cells.u j - 0.5 * P.h * (stSlopes P k st).su j,
            p := st.cells.p j - 0.5 * P.h * (stSlopes P k st).sp j })
    ∧ (stInterR P k st P.m
        = { rho := (stG2 P k st).RHOR + 0.5 * P.h * (stG2 P k st).SRHOR,
            u := (stG2 P k st).UR + 0.5 * P.h * (stG2 P k st).SUR,
            p := (stG2 P k st).PR + 0.5 * P.h * (stG2 P k st).SPR })
    ∧ (stReconFail P k st = true ↔ ∃ i ≤ P.m,
        (stInterL P k st i).p < P.eps ∨ (stInterR P k st i).p < P.eps
        ∨ (stInterL P k st i).rho < P.eps ∨ (stInterR P k st i).rho < P.eps)
    ∧ (stReconFail P k st = true → doStep P k st = .fatal) := by
  refine ⟨?_, ?_, ?_, ?_, ?_, ?_⟩
  · intro hj
    simp [stInterL, reconLState, hj]
  · simp [stInterL, reconLState]
  · intro hj
    simp [stInterR, reconRState, hj]
  · simp [stInterR, reconRState]
  · simp only [stReconFail, List.any_eq_true, List.mem_range, decide_eq_true_eq,
      Nat.lt_succ_iff, reconBad]
  · intro hrf
    unfold doStep
    cases hbc : bcValues P.bound P.m st.cells st.findBound st.g with
    | none => rfl
    | some x =>
      rw [if_pos hrf]

/-- Witness for the amended C7 at a concrete configuration. -/
theorem C7_amended_witness :
    stInterL P7c 1 st7c 1
      = { rho := st7c.cells.rho 0 + 0.5 * P7c.h * (stSlopes P7c 1 st7c).srho 0,
          u := st7c.cells.u 0 + 0.5 * P7c.h * (stSlopes P7c 1 st7c).su 0,
          p := st7c.cells.p 0 + 0.5 * P7c.h * (stSlopes P7c 1 st7c).sp 0 } :=
  (C7_amended P7c 1 st7c 1).1 (by decide)

/-! ## C8 -/

/-- C8 counterexample: a below-`eps` reconstruction failure at step 1 makes
the run exit through the `goto return_NULL` path *without* recording the
failing step index in `config[5]`: the caller still sees the configured
`N = 5`, not the failing step `1`. -/
theorem C8_cex :
    stReconFail P8c 1 st8c = true
    ∧ runGRP P8c cellsNegP ghostZero = .fatalAt 1 st8c
    ∧ config5OfRun (runGRP P8c cellsNegP ghostZero) = 5
    ∧ (5 : ℚ) ≠ 1 := by
  refine ⟨?_, ?_, ?_, ?_⟩
  · with_unfolding_all decide
  · with_unfolding_all rfl
  · with_unfolding_all decide
  · with_unfolding_all decide

/-- C8 (amended): the two failure channels behave differently.
A reconstruction failure (`rho` or `p` below `eps` at an interface) exits
the stepper immediately through `goto return_NULL`, and on that path
`config[5]` keeps the value it had when the step began.  A star-state or
cell-update failure does not abort at once: it forces `time_c = t_all`, the
step runs to completion, and the end-of-step check then breaks out with
`config[5] = k` (under finite `t_all`, `0 < eps`,
`-eps < CFL·h_S_max`, and `time_c ≤ t_all - eps` at step entry). -/
theorem C8_amended (P : Params) (k : ℕ) (st : StepState)
    (hfin : P.tFinite = true) (heps : 0 < P.eps)
    (hcfl : -P.eps < P.CFL * stHS P k st)
    (htc : st.time_c ≤ P.t_all - P.eps)
    (hbc : (bcValues P.bound P.m st.cells st.findBound st.g).isSome = true) :
    (stReconFail P k st = true → doStep P k st = .fatal)
    ∧ (stReconFail P k st = false →
        (stStarBad P k st = true ∨ stUpdBad P k st = true) →
        doStep P k st = .halt { nextState P k st with config5 := (k : ℚ) })
    ∧ (∀ (fuel k0 : ℕ) (s : StepState) (k1 : ℕ) (s2 : StepState),
        runAux P k0 fuel s = .fatalAt k1 s2 → s2.config5 = s.config5) := by
  refine ⟨?_, ?_, ?_⟩
  · intro hrf
    unfold doStep
    cases hbc2 : bcValues P.bound P.m st.cells st.findBound st.g with
    | none => rfl
    | some x => rw [if_pos hrf]
  · intro hrf hbad
    have h3 : stTc3 P k st > P.t_all - P.eps := by
      rcases hbad with hA | hB
      · have h1 : stTc1 P k st = P.t_all := by
          unfold stTc1; rw [if_pos ⟨hA, hfin⟩]
        have h2 : stTau P k st = P.t_all - stTc1 P k st := by
          unfold stTau chooseTau
          rw [if_pos (Or.inl hfin), if_pos ⟨hfin, by rw [h1]; linarith⟩]
        have h4 : (if stUpdBad P k st = true ∧ P.tFinite = true then P.t_all
            else stTc1 P k st) = P.t_all := by
          split
          · rfl
          · exact h1
        unfold stTc3
        rw [h4, h2, h1]
        linarith
      · have h4 : (if stUpdBad P k st = true ∧ P.tFinite = true then P.t_all
            else stTc1 P k st) = P.t_all := by rw [if_pos ⟨hB, hfin⟩]
        have htc1le : stTc1 P k st ≤ P.t_all - P.eps ∨ stTc1 P k st = P.t_all := by
          unfold stTc1; split
          · exact Or.inr rfl
          · exact Or.inl htc
        unfold stTc3
        rw [h4]
        unfold stTau chooseTau
        rw [if_pos (Or.inl hfin)]
        by_cases hcl : P.tFinite = true
            ∧ stTc1 P k st + P.CFL * stHS P k st > P.t_all - P.eps
        · rw [if_pos hcl]
          rcases htc1le with h | h
          · linarith
          · rw [h]; linarith
        · rw [if_neg hcl]
          linarith
    obtain ⟨x, hx⟩ := Option.isSome_iff_exists.mp hbc
    unfold doStep
    simp only [hx]
    rw [if_neg (by simp [hrf]), if_pos (Or.inl ⟨hfin, h3⟩)]
  · intro fuel k0 s k1 s2 h
    exact runAux_fatal_config5 P fuel k0 s k1 s2 h

/-- Witness for the amended C8: a star-state failure (`p* = 0 < eps`)
completes the step and breaks out with `config[5] = 1`. -/
theorem C8_amended_witness :
    doStep P8w 1 st8w = .halt { nextState P8w 1 st8w with config5 := ((1 : ℕ) : ℚ) } :=
  (C8_amended P8w 1 st8w rfl (by with_unfolding_all decide)
    (by with_unfolding_all decide) (by with_unfolding_all decide)
    (by with_unfolding_all decide)).2.1
    (by with_unfolding_all decide) (Or.inl (by with_unfolding_all decide))

/-! ## C9 -/

/-- C9 counterexample: with a negative mesh width every positivity test
passes, `h_S_max` is negative, and the step completes normally
(`.next`) with the negative time step `tau = CFL·h_S_max`: no `CFL_ZERO`
(or any other) error is surfaced for a non-positive `h_S_max`. -/
theorem C9_cex :
    stHS P9c 1 st9c < 0 ∧ stTau P9c 1 st9c < 0
    ∧ isNext (doStep P9c 1 st9c) = true := by
  refine ⟨?_, ?_, ?_⟩ <;> with_unfolding_all decide

/-- C9 (amended): the stepper performs no positivity check on `h_S_max`:
whenever `t_all` is finite and the clamp does not trigger, the step uses
`tau = CFL·h_S_max` unconditionally — in particular a non-positive
`h_S_max` (with `CFL ≥ 0`) yields a non-positive `tau`, and the step still
terminates in the ordinary `halt`-or-`next` way (given the boundary tag is
valid and reconstruction passed), surfacing no error. -/
theorem C9_amended (P : Params) (k : ℕ) (st : StepState)
    (hfin : P.tFinite = true)
    (hnc : ¬ (stTc1 P k st + P.CFL * stHS P k st > P.t_all - P.eps))
    (hSn : stHS P k st ≤ 0) (hCFL : 0 ≤ P.CFL)
    (hbc : (bcValues P.bound P.m st.cells st.findBound st.g).isSome = true)
    (hrf : stReconFail P k st = false) :
    stTau P k st = P.CFL * stHS P k st
    ∧ stTau P k st ≤ 0
    ∧ (doStep P k st = .halt { nextState P k st with config5 := (k : ℚ) }
        ∨ doStep P k st = .next (nextState P k st)) := by
  have h1 : stTau P k st = P.CFL * stHS P k st := by
    unfold stTau chooseTau
    rw [if_pos (Or.inl hfin), if_neg (fun hc => hnc hc.2)]
  refine ⟨h1, ?_, ?_⟩
  · rw [h1]
    have h2 := mul_le_mul_of_nonneg_left hSn hCFL
    simpa using h2
  · obtain ⟨x, hx⟩ := Option.isSome_iff_exists.mp hbc
    unfold doStep
    simp only [hx]
    rw [if_neg (by simp [hrf])]
    by_cases hbr : (P.tFinite = true ∧ stTc3 P k st > P.t_all - P.eps)
        ∨ stInf P k st = true
    · rw [if_pos hbr]; exact Or.inl rfl
    · rw [if_neg hbr]; exact Or.inr rfl

/-- Witness for the amended C9 at the negative-`h_S_max` configuration. -/
theorem C9_amended_witness :
    stTau P9c 1 st9c = P9c.CFL * stHS P9c 1 st9c ∧ stTau P9c 1 st9c ≤ 0 := by
  have h := C9_amended P9c 1 st9c rfl (by with_unfolding_all decide)
    (by with_unfolding_all decide) (by with_unfolding_all decide)
    (by with_unfolding_all decide) (by with_unfolding_all decide)
  exact ⟨h.1, h.2.1⟩

/-! ## C10 -/

/-- C10: whenever the stepping loop exits through the end-of-step time
check (the only `break` of the loop, lines 389-393) at step `k` — which
includes a normal, error-free run that reaches `t_final` — the final state
carries `config[5] = k`, the index of the last executed step, regardless of
the `N_max` the caller configured. -/
theorem C10_config5 (P : Params) (fuel k0 : ℕ) (st : StepState) (k : ℕ)
    (s : StepState) (h : runAux P k0 fuel st = .haltAt k s) :
    s.config5 = (k : ℚ) :=
  runAux_halt_config5 P fuel k0 st k s h

set_option maxRecDepth 40000 in
/-- Witness for C10: a normal error-free run configured with `N_max = 5`
reaches `t_final` at step 1 and leaves `config[5] = 1 ≠ 5`. -/
theorem C10_config5_witness :
    runAux P10c 1 P10c.N st10c = .haltAt 1 w10st
    ∧ w10st.config5 = ((1 : ℕ) : ℚ)
    ∧ st10c.config5 ≠ w10st.config5 := by
  have hrun : runAux P10c 1 P10c.N st10c = .haltAt 1 w10st := by
    with_unfolding_all rfl
  exact ⟨hrun, C10_config5 P10c P10c.N 1 st10c 1 w10st hrun,
    by with_unfolding_all decide⟩

end HydroGRP
